import Mathlib

/-!
Shallow embedding of the CarbsCals food-lookup widget core
(`src/application.js`, with a near-duplicate variant in `src/unnamed/part_000`).

Modelling conventions:
* JavaScript numbers are modelled as exact rationals (`ℚ`); the values the
  program manipulates (CSV decimals, integer budgets, the 1.2 margin factor)
  make every comparison in the claims agree with IEEE double evaluation.
* `parseInt` / `parseFloat` are modelled on decimal inputs (the only shape the
  dataset produces); `maxDailyCarbs` is an integer or null, modelled as
  `Option ℤ`.
* The shopping list, a JS object keyed by food name, is modelled as an
  association list in insertion order, matching JS object key enumeration.
-/
namespace CarbsCals

/-- A parsed nutrition record, as built by `parseCSVToFoods`. -/
structure Food where
  name : String
  protein : ℚ
  fat : ℚ
  carbs : ℚ
  calories : ℤ
  cholesterol : ℚ
  category : String
deriving DecidableEq, Repr

/-- The tri-state card colour emitted by the threshold classifier. -/
inductive Color where
  | red
  | orange
  | green
deriving DecidableEq, Repr

/-- Embedding of `getCardColor` (src/application.js lines 355-369):
`null` budget gives no colour; otherwise `B < C` is red, else `B < C * 1.2`
is orange, else green. -/
def getCardColor (maxDailyCarbs : Option ℚ) (food : Food) : Option Color :=
  match maxDailyCarbs with
  | none => none
  | some b =>
    if b < food.carbs then some Color.red
    else if b < food.carbs * 1.2 then some Color.orange
    else some Color.green

/-- A concrete food with exactly 10 g of carbs. -/
def riceTen : Food := ⟨"Rice", 2, 1, 10, 130, 0, "grain"⟩

/-- JavaScript `String.prototype.trim`, dropping whitespace from both ends.
Implemented structurally on the character list so that it evaluates by kernel
reduction. -/
def jsTrim (s : String) : String :=
  String.mk (((s.data.dropWhile Char.isWhitespace).reverse.dropWhile
    Char.isWhitespace).reverse)

/-- JavaScript `String.prototype.toLowerCase` on the character list. -/
def jsToLower (s : String) : List Char :=
  s.data.map Char.toLower

/-- The five filter inputs read by `filterFoods` (src/application.js lines
131-135): four dropdown values plus the raw search box content. -/
structure FilterCriteria where
  foodName : String
  carbsFilter : String
  caloriesFilter : String
  categoryFilter : String
  searchTerm : String
deriving DecidableEq, Repr

/-- Embedding of the carbs-band switch (src/application.js lines 148-163). -/
def carbsFilterPass (sel : String) (f : Food) : Bool :=
  if sel = "very-low" then decide (f.carbs < 10)
  else if sel = "low" then decide (10 ≤ f.carbs ∧ f.carbs < 20)
  else if sel = "medium-low" then decide (20 ≤ f.carbs ∧ f.carbs < 30)
  else if sel = "medium" then decide (30 ≤ f.carbs ∧ f.carbs < 40)
  else if sel = "medium-high" then decide (40 ≤ f.carbs ∧ f.carbs < 50)
  else if sel = "high" then decide (50 ≤ f.carbs)
  else true

/-- Embedding of the calories-band switch (src/application.js lines 170-179). -/
def caloriesFilterPass (sel : String) (f : Food) : Bool :=
  if sel = "low" then decide (f.calories < 200)
  else if sel = "medium" then decide (200 ≤ f.calories ∧ f.calories ≤ 500)
  else if sel = "high" then decide (500 < f.calories)
  else true

/-- The successive `Array.filter` passes of `filterFoods` (src/application.js
lines 138-194): exact name, carbs band, calories band, exact category, then a
case-insensitive substring search active only when the trimmed term has at
least 3 characters. -/
def applyFilterPredicates (foods : List Food) (c : FilterCriteria) : List Food :=
  let fs1 := if c.foodName ≠ "" then foods.filter (fun f => f.name == c.foodName) else foods
  let fs2 := if c.carbsFilter ≠ "" then fs1.filter (carbsFilterPass c.carbsFilter) else fs1
  let fs3 := if c.caloriesFilter ≠ "" then fs2.filter (caloriesFilterPass c.caloriesFilter) else fs2
  let fs4 := if c.categoryFilter ≠ "" then fs3.filter (fun f => f.category == c.categoryFilter) else fs3
  let st := jsTrim c.searchTerm
  if 3 ≤ st.length then
    fs4.filter (fun f => decide (List.IsInfix (jsToLower st) (jsToLower f.name)))
  else fs4

/-- The comparator of `sortFoods` (src/application.js lines 212-231), returning
a signed rational as the JS comparator returns a signed number.
`localeCompare` is modelled as code-point string comparison. -/
def jsCompare (sortOption : String) (a b : Food) : ℚ :=
  if sortOption = "alphabetical" then
    match compare a.name b.name with
    | Ordering.lt => -1
    | Ordering.eq => 0
    | Ordering.gt => 1
  else if sortOption = "carbs-high-low" then b.carbs - a.carbs
  else if sortOption = "carbs-low-high" then a.carbs - b.carbs
  else if sortOption = "calories-high-low" then ((b.calories - a.calories : ℤ) : ℚ)
  else if sortOption = "calories-low-high" then ((a.calories - b.calories : ℤ) : ℚ)
  else if sortOption = "fat-high-low" then b.fat - a.fat
  else if sortOption = "fat-low-high" then a.fat - b.fat
  else 0

/-- Embedding of `sortFoods` (src/application.js lines 211-232): `Array.sort`
is a stable comparator sort, modelled as insertion sort placing `a` before `b`
whenever the comparator is non-positive. -/
def sortFoods (foods : List Food) (sortOption : String) : List Food :=
  foods.insertionSort (fun a b => jsCompare sortOption a b ≤ 0)

/-- True exactly when at least one `Array.filter` pass runs inside
`filterFoods`, i.e. when `filteredFoods` is a fresh array rather than an alias
of the global `allFoods`. -/
def anyFilterActive (c : FilterCriteria) : Bool :=
  c.foodName != "" || c.carbsFilter != "" || c.caloriesFilter != "" ||
    c.categoryFilter != "" || decide (3 ≤ (jsTrim c.searchTerm).length)

/-- Embedding of one run of `filterFoods` (src/application.js lines 129-204)
acting on the global state: returns the pair (value of `allFoods` after the
call, displayed list). `filteredFoods` starts as the same array object as
`allFoods`; when no filter pass runs, `sortFoods` therefore sorts `allFoods`
in place, which the model reflects in the first component. -/
def filterFoodsRun (allFoods : List Food) (c : FilterCriteria) (sortOption : String) :
    List Food × List Food :=
  let filtered := applyFilterPredicates allFoods c
  let sorted := sortFoods filtered sortOption
  (if anyFilterActive c then allFoods else sorted, sorted)

/-- Two concrete foods used as counterexample data. -/
def appleOne : Food := ⟨"Apple", 1, 1, 1, 52, 0, "fruit"⟩

/-- A second concrete food, carb-heavier than `appleOne`. -/
def breadFifty : Food := ⟨"Bread", 9, 2, 50, 265, 0, "bakery"⟩

/-- A shopping-list value: number of discrete additions plus the gram
multiplier in effect at the last edit (src/application.js line 11). -/
structure ShopEntry where
  count : ℤ
  multiplier : ℚ
deriving DecidableEq, Repr

/-- The shopping-list object, modelled as an association list in key insertion
order, matching JS object key enumeration. -/
abbrev ShoppingList := List (String × ShopEntry)

/-- Property lookup `shoppingList[foodName]`. -/
def slLookup (sl : ShoppingList) (k : String) : Option ShopEntry :=
  (sl.find? (fun p => p.1 == k)).map (fun p => p.2)

/-- Embedding of `addToShoppingList` (src/application.js lines 551-568): an
existing entry gets its count incremented and its multiplier overwritten; a
missing key is created with count 1 (JS appends new keys last). -/
def addToShoppingList (sl : ShoppingList) (foodName : String) (multiplier : ℚ) :
    ShoppingList :=
  match slLookup sl foodName with
  | some e =>
    sl.map (fun p => if p.1 = foodName then (p.1, ⟨e.count + 1, multiplier⟩) else p)
  | none => sl ++ [(foodName, ⟨1, multiplier⟩)]

/-- Embedding of `removeFromShoppingList` (src/application.js lines 574-590):
count above 1 is decremented (the multiplier argument is unused), count 1
deletes the key, a missing key is a no-op. -/
def removeFromShoppingList (sl : ShoppingList) (foodName : String) (_m : ℚ) :
    ShoppingList :=
  match slLookup sl foodName with
  | some e =>
    if 1 < e.count then
      sl.map (fun p => if p.1 = foodName then (p.1, ⟨e.count - 1, p.2.multiplier⟩) else p)
    else sl.filter (fun p => p.1 != foodName)
  | none => sl

/-- Embedding of the quantity-change handler (src/application.js lines
317-324): when an entry exists for the food its multiplier is overwritten,
count untouched; otherwise nothing happens. -/
def setMultiplierSL (sl : ShoppingList) (foodName : String) (multiplier : ℚ) :
    ShoppingList :=
  sl.map (fun p => if p.1 = foodName then (p.1, ⟨p.2.count, multiplier⟩) else p)

/-- Embedding of `resetShoppingList` (src/application.js lines 677-683). -/
def resetShoppingList : ShoppingList := []

/-- The shopping-list states reachable from the empty object through the four
aggregator operations. -/
inductive SLReachable : ShoppingList → Prop where
  | empty : SLReachable []
  | add (sl : ShoppingList) (foodName : String) (m : ℚ) :
      SLReachable sl → SLReachable (addToShoppingList sl foodName m)
  | remove (sl : ShoppingList) (foodName : String) (m : ℚ) :
      SLReachable sl → SLReachable (removeFromShoppingList sl foodName m)
  | setMult (sl : ShoppingList) (foodName : String) (m : ℚ) :
      SLReachable sl → SLReachable (setMultiplierSL sl foodName m)
  | reset (sl : ShoppingList) : SLReachable sl → SLReachable resetShoppingList

/-- The invariant of C5: every stored entry has count at least 1. -/
def slCountInv (sl : ShoppingList) : Prop := ∀ p ∈ sl, 1 ≤ p.2.count

/-- One iteration of the accumulation loop in `updateTotals`
(src/application.js lines 601-610): look the entry's name up in `allFoods`;
a hit adds `field * multiplier * count` to each accumulator, a miss leaves
the accumulators untouched. -/
def totalsStep (foods : List Food) (acc : ℚ × ℚ × ℚ) (p : String × ShopEntry) :
    ℚ × ℚ × ℚ :=
  match foods.find? (fun f => f.name == p.1) with
  | some food =>
    (acc.1 + food.carbs * p.2.multiplier * (p.2.count : ℚ),
     acc.2.1 + (food.calories : ℚ) * p.2.multiplier * (p.2.count : ℚ),
     acc.2.2 + food.fat * p.2.multiplier * (p.2.count : ℚ))
  | none => acc

/-- The unrounded accumulation of `updateTotals` over the shopping list:
(carbs, calories, fat). -/
def computeTotals (foods : List Food) (sl : ShoppingList) : ℚ × ℚ × ℚ :=
  sl.foldl (totalsStep foods) (0, 0, 0)

/-- JavaScript `Math.round`: round half toward positive infinity. -/
def jsRound (q : ℚ) : ℤ := ⌊q + 1/2⌋

/-- Embedding of the displayed output of `updateTotals` (src/application.js
lines 595-616): each accumulated total rounded to the nearest integer. -/
def updateTotals (foods : List Food) (sl : ShoppingList) : ℤ × ℤ × ℤ :=
  (jsRound (computeTotals foods sl).1, jsRound (computeTotals foods sl).2.1,
   jsRound (computeTotals foods sl).2.2)

/-- Follows the spec's words: the contribution of a single entry is
`food.field * multiplier * count` for the Food matching the entry's name, and
zero on a missing lookup. -/
def entryContrib (foods : List Food) (p : String × ShopEntry) : ℚ × ℚ × ℚ :=
  match foods.find? (fun f => f.name == p.1) with
  | some food =>
    (food.carbs * p.2.multiplier * (p.2.count : ℚ),
     (food.calories : ℚ) * p.2.multiplier * (p.2.count : ℚ),
     food.fat * p.2.multiplier * (p.2.count : ℚ))
  | none => (0, 0, 0)

/-- Follows the spec's words: each total is the plain sum of the per-entry
contributions over the whole list. -/
def totalsSpec (foods : List Food) (sl : ShoppingList) : ℚ × ℚ × ℚ :=
  (((sl.map (entryContrib foods)).map (fun t => t.1)).sum,
   ((sl.map (entryContrib foods)).map (fun t => t.2.1)).sum,
   ((sl.map (entryContrib foods)).map (fun t => t.2.2)).sum)

/-- The double-quote character. -/
def dquoteChar : Char := Char.ofNat 34

/-- The comma character. -/
def commaChar : Char := Char.ofNat 44

/-- The line-feed character. -/
def newlineChar : Char := Char.ofNat 10

/-- The carriage-return character. -/
def crChar : Char := Char.ofNat 13

/-- The minus-sign character. -/
def minusChar : Char := Char.ofNat 45

/-- The plus-sign character. -/
def plusChar : Char := Char.ofNat 43

/-- The decimal-point character. -/
def dotChar : Char := Char.ofNat 46

/-- The character loop of `parseCSVLine` (src/application.js lines 514-544):
a double quote toggles quote mode unless it is an escaped doubled quote inside
quotes; a comma outside quotes closes the current field; anything else is
accumulated. The accumulator holds the current field reversed. -/
def csvGo : ℕ → List Char → Bool → List Char → List String
  | _, [], _, cur => [String.mk cur.reverse]
  | 0, _ :: _, _, cur => [String.mk cur.reverse]
  | fuel + 1, c :: rest, inQ, cur =>
    if c = dquoteChar then
      if inQ then
        match rest with
        | c2 :: rest2 =>
          if c2 = dquoteChar then csvGo fuel rest2 true (dquoteChar :: cur)
          else csvGo fuel rest false cur
        | [] => csvGo fuel rest false cur
      else csvGo fuel rest true cur
    else if c = commaChar ∧ inQ = false then
      String.mk cur.reverse :: csvGo fuel rest false []
    else csvGo fuel rest inQ (c :: cur)

/-- Embedding of `parseCSVLine` (src/application.js lines 514-544). The fuel
equals the character count, which the loop never exhausts since every step
consumes at least one character. -/
def parseCSVLine (line : String) : List String :=
  csvGo line.data.length line.data false []

/-- The JS idiom `s.replace(/"/g, '').trim()` applied to name and category
fields: drop every double quote, then trim. -/
def jsStripQuotes (s : String) : String :=
  jsTrim (String.mk (s.data.filter (fun c => c ≠ dquoteChar)))

/-- Decimal digit-string value. -/
def digitsToNat (ds : List Char) : ℕ :=
  ds.foldl (fun n c => 10 * n + (c.toNat - 48)) 0

/-- JavaScript `parseInt` in base 10: skip leading whitespace, optional sign,
then the longest digit prefix; `none` models `NaN` when no digit is found. -/
def parseIntJS (s : String) : Option ℤ :=
  match s.data.dropWhile Char.isWhitespace with
  | [] => none
  | c :: r =>
    let signDigits : ℤ × List Char :=
      if c = minusChar then (-1, r)
      else if c = plusChar then (1, r)
      else (1, c :: r)
    let ds := signDigits.2.takeWhile Char.isDigit
    if ds.isEmpty then none else some (signDigits.1 * (digitsToNat ds : ℤ))

/-- The exact rational value of a decimal literal `sign · ip.fp · 10^e`,
assembled with a single normalising `mkRat` so it evaluates by kernel
reduction. -/
def jsDecimalValue (sign : ℤ) (ip fp : List Char) (e : ℤ) : ℚ :=
  let num : ℤ := sign * ((digitsToNat ip : ℤ) * 10 ^ fp.length + (digitsToNat fp : ℤ))
  if 0 ≤ e then mkRat (num * 10 ^ e.toNat) (10 ^ fp.length)
  else mkRat num (10 ^ fp.length * 10 ^ (-e).toNat)

/-- JavaScript `parseFloat` on its decimal grammar: skip leading whitespace,
optional sign, integer digits, optional fraction after a dot, optional
`e`/`E` exponent (ignored if it has no digits, as `parseFloat` backtracks);
`none` models `NaN` when neither integer nor fraction digits exist. -/
def parseFloatQ (s : String) : Option ℚ :=
  let cs0 := s.data.dropWhile Char.isWhitespace
  let signRest : ℤ × List Char :=
    match cs0 with
    | c :: r =>
      if c = minusChar then (-1, r)
      else if c = plusChar then (1, r)
      else (1, cs0)
    | [] => (1, cs0)
  let ip := signRest.2.takeWhile Char.isDigit
  let rest1 := signRest.2.dropWhile Char.isDigit
  let fpRest : List Char × List Char :=
    match rest1 with
    | c :: r =>
      if c = dotChar then (r.takeWhile Char.isDigit, r.dropWhile Char.isDigit)
      else ([], rest1)
    | [] => ([], rest1)
  if ip.isEmpty ∧ fpRest.1.isEmpty then none
  else
    let e : ℤ :=
      match fpRest.2 with
      | c :: r =>
        if c = 'e' ∨ c = 'E' then
          let esRest : ℤ × List Char :=
            match r with
            | c2 :: r2 =>
              if c2 = minusChar then (-1, r2)
              else if c2 = plusChar then (1, r2)
              else (1, r)
            | [] => (1, r)
          let eds := esRest.2.takeWhile Char.isDigit
          if eds.isEmpty then 0 else esRest.1 * (digitsToNat eds : ℤ)
        else 0
      | [] => 0
    some (jsDecimalValue signRest.1 ip fpRest.1 e)

/-- The numeric-field idiom of `parseCSVToFoods` (src/application.js lines
491-496): the literal tokens `Tr` and `N` give the 0.1 sentinel, otherwise
`parseFloat(x) || 0`, with `NaN` collapsing to 0. -/
def numField (s : String) : ℚ :=
  if s = "Tr" ∨ s = "N" then mkRat 1 10 else (parseFloatQ s).getD 0

/-- The calories idiom `parseInt(fields[4]) || 0`. -/
def calField (s : String) : ℤ :=
  (parseIntJS s).getD 0

/-- One data line of `parseCSVToFoods` (src/application.js lines 486-503):
lines with fewer than 9 fields are dropped; the Food is built from fixed
positional fields; rows with an empty name or with no strictly positive
protein, fat, carbs or calories are dropped. -/
def parseRow (line : String) : Option Food :=
  let fields := parseCSVLine line
  if 9 ≤ fields.length then
    let food : Food :=
      { name := jsStripQuotes (fields.getD 0 "")
        protein := numField (fields.getD 1 "")
        fat := numField (fields.getD 2 "")
        carbs := numField (fields.getD 3 "")
        calories := calField (fields.getD 4 "")
        cholesterol := numField (fields.getD 7 "")
        category := jsStripQuotes (fields.getD 8 "") }
    if food.name ≠ "" ∧
        (0 < food.protein ∨ 0 < food.fat ∨ 0 < food.carbs ∨ 0 < food.calories)
    then some food else none
  else none

/-- The split on `/\r?\n/`: cut at every line feed. -/
def splitLinesChars : List Char → List (List Char)
  | [] => [[]]
  | c :: r =>
    match splitLinesChars r with
    | [] => [[]]
    | l :: ls => if c = newlineChar then [] :: l :: ls else (c :: l) :: ls

/-- Drop the carriage return left at the end of a line by a CRLF ending. -/
def stripCR (l : List Char) : List Char :=
  if l.getLast? = some crChar then l.dropLast else l

/-- Raw text to lines, on both Windows and Unix line endings
(src/application.js line 476). -/
def splitLines (s : String) : List String :=
  (splitLinesChars s.data).map (fun l => String.mk (stripCR l))

/-- Embedding of `parseCSVToFoods` (src/application.js lines 474-507): skip
the first 3 header lines, trim each line, skip empties, parse the rest. -/
def parseCSVToFoods (csvText : String) : List Food :=
  ((splitLines csvText).drop 3).filterMap (fun l =>
    let line := jsTrim l
    if line = "" then none else parseRow line)

/-- The sample CSV scenario from the spec: three header lines, then the Apple
and Chicken Breast rows (fields 5-6 hold unused placeholder zeroes). -/
def sampleCSV : String :=
  "h1\nh2\nh3\n\"Apple\",0.3,0.2,\"Tr\",52,0,0,\"N\",\"fruit\"\n\"Chicken Breast\",31,3.6,0,165,0,0,2.1,\"meat\""

/-- The Food record the Apple row parses to. -/
def appleParsed : Food := ⟨"Apple", 0.3, 0.2, 0.1, 52, 0.1, "fruit"⟩

/-- The Food record the Chicken Breast row parses to. -/
def chickenParsed : Food := ⟨"Chicken Breast", 31, 3.6, 0, 165, 2.1, "meat"⟩

/-- Embedding of `updateMaxDailyCarbs` (src/application.js lines 425-454) as
a function from the previous budget and the raw input-box text to the new
budget: a trimmed-empty input clears the budget; a `NaN` or negative parse
keeps the previous value; otherwise the parsed integer is stored. -/
def updateMaxDailyCarbs (prev : Option ℤ) (input : String) : Option ℤ :=
  let value := jsTrim input
  if value = "" then none
  else
    match parseIntJS value with
    | none => prev
    | some n => if n < 0 then prev else some n

/-- C1: for every Food and budget, the classifier returns no colour when the
budget is unset; otherwise red exactly when `B < carbs`, orange exactly when
`B ≥ carbs` and `B < carbs * 1.2` (both comparisons strict `<`), green
otherwise; in particular carbs = 0 with budget 0 gives green. -/
theorem getCardColor_classification (f : Food) (b : ℚ) :
    getCardColor none f = none ∧
    (getCardColor (some b) f = some Color.red ↔ b < f.carbs) ∧
    (getCardColor (some b) f = some Color.orange ↔
      f.carbs ≤ b ∧ b < f.carbs * 1.2) ∧
    (getCardColor (some b) f = some Color.green ↔
      f.carbs ≤ b ∧ f.carbs * 1.2 ≤ b) ∧
    (f.carbs = 0 → getCardColor (some 0) f = some Color.green) := by
  refine ⟨rfl, ?_, ?_, ?_, ?_⟩ <;>
    simp only [getCardColor] <;> split_ifs with h1 h2 <;>
    simp_all <;> intro h <;> linarith

/-- Witness: the classifier at budget 0 on a zero-carb food is green. -/
theorem getCardColor_classification_witness :
    getCardColor (some 0) ⟨"Water", 0, 0, 0, 0, 0, "drink"⟩ = some Color.green :=
  (getCardColor_classification ⟨"Water", 0, 0, 0, 0, 0, "drink"⟩ 0).2.2.2.2 rfl

/-- C3 counterexample: at budget 10 and carbs 10 the code returns orange, not
green, because `10 < 10 * 1.2 = 12` holds. -/
theorem getCardColor_ten_ten_not_green :
    getCardColor (some 10) riceTen ≠ some Color.green ∧
    getCardColor (some 10) riceTen = some Color.orange := by
  refine ⟨?_, ?_⟩ <;> norm_num [getCardColor, riceTen]
  decide

/-- C3 amended: for budget 10 and any food with carbs 10 the classifier
returns orange (10 < 10 is false, but 10 < 12 is true). -/
theorem getCardColor_boundary_orange (f : Food) (h : f.carbs = 10) :
    getCardColor (some 10) f = some Color.orange := by
  simp [getCardColor, h]
  norm_num

/-- Witness: the boundary theorem applied to the concrete 10-carb food. -/
theorem getCardColor_boundary_orange_witness :
    getCardColor (some 10) riceTen = some Color.orange :=
  getCardColor_boundary_orange riceTen rfl

/-- C2 counterexample: with no active filter and sort option carbs-high-low,
running the pipeline reorders the global `allFoods` in place (the in-place
`Array.sort` acts on the alias), so the input collection is mutated. -/
theorem filterFoodsRun_mutates_input :
    (filterFoodsRun [appleOne, breadFifty] ⟨"", "", "", "", ""⟩
        "carbs-high-low").1 ≠ [appleOne, breadFifty] ∧
    (filterFoodsRun [appleOne, breadFifty] ⟨"", "", "", "", ""⟩
        "carbs-high-low").1 = [breadFifty, appleOne] := by
  have hr : ¬ (jsCompare "carbs-high-low" appleOne breadFifty ≤ 0) := by
    show ¬ ((50 : ℚ) - 1 ≤ 0)
    norm_num
  have h0 : (filterFoodsRun [appleOne, breadFifty] ⟨"", "", "", "", ""⟩
      "carbs-high-low").1 = sortFoods [appleOne, breadFifty] "carbs-high-low" := rfl
  have hs : (filterFoodsRun [appleOne, breadFifty] ⟨"", "", "", "", ""⟩
      "carbs-high-low").1 = [breadFifty, appleOne] := by
    rw [h0]
    simp [sortFoods, List.insertionSort, List.orderedInsert, hr]
  refine ⟨?_, hs⟩
  rw [hs]
  simp [appleOne, breadFifty]

/-- C2 amended: the pipeline leaves `allFoods` unchanged whenever at least one
filter criterion is active (so `filteredFoods` is a fresh array); with no
active criterion the in-place sort may reorder `allFoods`, but it always still
holds exactly the original records up to permutation. -/
theorem filterFoodsRun_frame (foods : List Food) (c : FilterCriteria)
    (sortOption : String) :
    (anyFilterActive c = true → (filterFoodsRun foods c sortOption).1 = foods) ∧
    ((filterFoodsRun foods c sortOption).1).Perm foods := by
  constructor
  · intro h
    simp [filterFoodsRun, h]
  · by_cases h : anyFilterActive c = true
    · simp [filterFoodsRun, h]
    · have hn : anyFilterActive c = false := by
        revert h; cases anyFilterActive c <;> simp
      have hid : applyFilterPredicates foods c = foods := by
        simp only [anyFilterActive, Bool.or_eq_false_iff, bne_eq_false_iff_eq,
          decide_eq_false_iff_not] at hn
        obtain ⟨⟨⟨⟨h1, h2⟩, h3⟩, h4⟩, h5⟩ := hn
        simp [applyFilterPredicates, h1, h2, h3, h4, h5]
      simp only [filterFoodsRun, hn, Bool.false_eq_true, if_false, hid]
      exact List.perm_insertionSort _ foods

/-- Witness: with the exact-name filter active the input list is returned
untouched in the first component. -/
theorem filterFoodsRun_frame_witness :
    (filterFoodsRun [riceTen] ⟨"Rice", "", "", "", ""⟩ "carbs-high-low").1 =
      [riceTen] :=
  (filterFoodsRun_frame [riceTen] ⟨"Rice", "", "", "", ""⟩ "carbs-high-low").1
    (by decide)

lemma slLookup_count_ge (sl : ShoppingList) (n : String) (e : ShopEntry)
    (h : slCountInv sl) (hl : slLookup sl n = some e) : 1 ≤ e.count := by
  simp only [slLookup, Option.map_eq_some'] at hl
  obtain ⟨p, hp, rfl⟩ := hl
  exact h p (List.mem_of_find?_eq_some hp)

lemma slCountInv_add (sl : ShoppingList) (n : String) (m : ℚ)
    (h : slCountInv sl) : slCountInv (addToShoppingList sl n m) := by
  unfold addToShoppingList
  cases hl : slLookup sl n with
  | none =>
    intro p hp
    rcases List.mem_append.1 hp with h1 | h1
    · exact h p h1
    · simp at h1
      simp [h1]
  | some e =>
    have he := slLookup_count_ge sl n e h hl
    intro p hp
    rcases List.mem_map.1 hp with ⟨q, hq, rfl⟩
    by_cases hq1 : q.1 = n
    · simp [hq1]
      omega
    · simp only [if_neg hq1]
      exact h q hq

lemma slCountInv_remove (sl : ShoppingList) (n : String) (m : ℚ)
    (h : slCountInv sl) : slCountInv (removeFromShoppingList sl n m) := by
  unfold removeFromShoppingList
  cases hl : slLookup sl n with
  | none => exact h
  | some e =>
    by_cases hc : 1 < e.count
    · simp only [if_pos hc]
      intro p hp
      rcases List.mem_map.1 hp with ⟨q, hq, rfl⟩
      by_cases hq1 : q.1 = n
      · simp [hq1]
        omega
      · simp only [if_neg hq1]
        exact h q hq
    · simp only [if_neg hc]
      intro p hp
      exact h p (List.mem_of_mem_filter hp)

lemma slCountInv_setMult (sl : ShoppingList) (n : String) (m : ℚ)
    (h : slCountInv sl) : slCountInv (setMultiplierSL sl n m) := by
  intro p hp
  rcases List.mem_map.1 hp with ⟨q, hq, rfl⟩
  by_cases hq1 : q.1 = n
  · simp [hq1]
    exact h q hq
  · simp only [if_neg hq1]
    exact h q hq

/-- C5: in every shopping list reachable from the empty one by add, remove,
quantity-change and reset, every stored entry has count at least 1; no key is
ever bound to a count of zero or below. -/
theorem shoppingList_count_invariant (sl : ShoppingList) (h : SLReachable sl) :
    slCountInv sl := by
  induction h with
  | empty => intro p hp; cases hp
  | add sl n m _ ih => exact slCountInv_add sl n m ih
  | remove sl n m _ ih => exact slCountInv_remove sl n m ih
  | setMult sl n m _ ih => exact slCountInv_setMult sl n m ih
  | reset sl _ _ => intro p hp; cases hp

/-- Witness: the invariant holds for the reachable one-entry list built by a
single add on the empty list. -/
theorem shoppingList_count_invariant_witness :
    slCountInv (addToShoppingList [] "Apple" 1) :=
  shoppingList_count_invariant (addToShoppingList [] "Apple" 1)
    (SLReachable.add [] "Apple" 1 SLReachable.empty)

/-- C6: adding a food absent from the shopping list and then removing it with
the same positive multiplier restores exactly the original list. -/
theorem add_remove_roundtrip (sl : ShoppingList) (foodName : String) (m : ℚ)
    (_hm : 0 < m) (habs : slLookup sl foodName = none) :
    removeFromShoppingList (addToShoppingList sl foodName m) foodName m = sl := by
  have hfind : sl.find? (fun p => p.1 == foodName) = none := by
    simpa [slLookup] using habs
  have hall := List.find?_eq_none.1 hfind
  have hadd : addToShoppingList sl foodName m = sl ++ [(foodName, ⟨1, m⟩)] := by
    simp [addToShoppingList, habs]
  rw [hadd]
  have hlook : slLookup (sl ++ [(foodName, ⟨1, m⟩)]) foodName =
      some (⟨1, m⟩ : ShopEntry) := by
    simp [slLookup, List.find?_append, hfind]
  simp only [removeFromShoppingList, hlook]
  rw [if_neg (by omega)]
  rw [List.filter_append]
  have h1 : (sl.filter (fun p => p.1 != foodName)) = sl :=
    List.filter_eq_self.2 (fun p hp => by simpa using hall p hp)
  have h2 : (([(foodName, (⟨1, m⟩ : ShopEntry))] : ShoppingList).filter
      (fun p => p.1 != foodName)) = [] := by simp
  rw [h1, h2, List.append_nil]

/-- Witness: the round trip on a concrete list that lacks the added key. -/
theorem add_remove_roundtrip_witness :
    removeFromShoppingList
      (addToShoppingList [("Bread", ⟨2, 1⟩)] "Apple" (3/2)) "Apple" (3/2) =
      [("Bread", ⟨2, 1⟩)] :=
  add_remove_roundtrip [("Bread", ⟨2, 1⟩)] "Apple" (3/2) (by norm_num) rfl

lemma foldl_totalsStep (foods : List Food) (sl : ShoppingList) (acc : ℚ × ℚ × ℚ) :
    sl.foldl (totalsStep foods) acc =
      (acc.1 + (totalsSpec foods sl).1, acc.2.1 + (totalsSpec foods sl).2.1,
       acc.2.2 + (totalsSpec foods sl).2.2) := by
  induction sl generalizing acc with
  | nil => simp [totalsSpec]
  | cons p sl ih =>
    rw [List.foldl_cons, ih]
    cases hf : foods.find? (fun f => f.name == p.1) with
    | some food =>
      simp only [totalsSpec, totalsStep, entryContrib, hf, List.map_cons,
        List.sum_cons]
      refine Prod.ext ?_ (Prod.ext ?_ ?_) <;> simp <;> ring
    | none =>
      simp only [totalsSpec, totalsStep, entryContrib, hf, List.map_cons,
        List.sum_cons]
      refine Prod.ext ?_ (Prod.ext ?_ ?_) <;> simp

/-- C7: the displayed totals are the nearest-integer roundings of the sums of
`food.field * multiplier * count` over all entries; an entry whose name
matches no Food contributes zero to every total (and raises no error); and a
double add at multiplier 1.5 contributes exactly `carbs * 1.5 * 2` before
rounding. -/
theorem updateTotals_spec (foods : List Food) (sl : ShoppingList) :
    updateTotals foods sl =
      (jsRound (totalsSpec foods sl).1, jsRound (totalsSpec foods sl).2.1,
       jsRound (totalsSpec foods sl).2.2) ∧
    (∀ (name : String) (e : ShopEntry),
      foods.find? (fun f => f.name == name) = none →
      computeTotals foods ((name, e) :: sl) = computeTotals foods sl) ∧
    (∀ f : Food, foods.find? (fun g => g.name == f.name) = some f →
      (computeTotals foods
        (addToShoppingList (addToShoppingList [] f.name (3/2)) f.name (3/2))).1 =
        f.carbs * (3/2) * 2) := by
  refine ⟨?_, ?_, ?_⟩
  · have h := foldl_totalsStep foods sl (0, 0, 0)
    simp only [computeTotals, updateTotals, h]
    norm_num
  · intro name e h
    simp [computeTotals, totalsStep, h]
  · intro f hf
    have hsl : addToShoppingList (addToShoppingList [] f.name (3/2)) f.name (3/2) =
        [(f.name, ⟨2, 3/2⟩)] := by
      simp [addToShoppingList, slLookup, List.find?]
    rw [hsl]
    simp [computeTotals, totalsStep, hf]

/-- Witness: a ghost entry over a one-food collection contributes nothing,
and the double add of the known food yields carbs times 1.5 times 2. -/
theorem updateTotals_spec_witness :
    computeTotals [appleOne] [("Ghost", ⟨1, 1⟩)] = computeTotals [appleOne] [] ∧
    (computeTotals [appleOne]
      (addToShoppingList (addToShoppingList [] appleOne.name (3/2))
        appleOne.name (3/2))).1 = appleOne.carbs * (3/2) * 2 :=
  ⟨(updateTotals_spec [appleOne] []).2.1 "Ghost" ⟨1, 1⟩ (by decide),
   (updateTotals_spec [appleOne] []).2.2 appleOne (by decide)⟩

/-- C8: the very-low carbs band keeps exactly the foods with carbs strictly
below 10, and the medium calories band keeps exactly those with calories
between 200 and 500 inclusive. -/
theorem bandFilter_boundaries (foods : List Food) (f : Food) :
    (f ∈ applyFilterPredicates foods ⟨"", "very-low", "", "", ""⟩ ↔
      f ∈ foods ∧ f.carbs < 10) ∧
    (f ∈ applyFilterPredicates foods ⟨"", "", "medium", "", ""⟩ ↔
      f ∈ foods ∧ 200 ≤ f.calories ∧ f.calories ≤ 500) := by
  have h1 : applyFilterPredicates foods ⟨"", "very-low", "", "", ""⟩ =
      foods.filter (carbsFilterPass "very-low") := rfl
  have h2 : applyFilterPredicates foods ⟨"", "", "medium", "", ""⟩ =
      foods.filter (caloriesFilterPass "medium") := rfl
  constructor
  · rw [h1]
    simp [List.mem_filter, carbsFilterPass]
  · rw [h2]
    simp [List.mem_filter, caloriesFilterPass]

/-- C4: parsing the sample CSV yields exactly the two expected records, with
the `Tr` carbs and `N` cholesterol tokens mapped to the 0.1 sentinel; the
tokens `Tr` and `N` always give the sentinel, and every other token that
`parseFloat` cannot read at all gives 0. -/
theorem parseCSVToFoods_sample :
    parseCSVToFoods sampleCSV = [appleParsed, chickenParsed] ∧
    numField "Tr" = 0.1 ∧ numField "N" = 0.1 ∧
    (∀ s : String, s ≠ "Tr" → s ≠ "N" → parseFloatQ s = none → numField s = 0) := by
  refine ⟨?_, by norm_num [numField, Rat.mkRat_eq_div], by
    norm_num [numField, Rat.mkRat_eq_div], ?_⟩
  · have h : parseCSVToFoods sampleCSV =
        [⟨"Apple", mkRat 3 10, mkRat 2 10, mkRat 1 10, 52, mkRat 1 10, "fruit"⟩,
         ⟨"Chicken Breast", mkRat 31 1, mkRat 36 10, 0, 165, mkRat 21 10, "meat"⟩] := by
      decide
    rw [h]
    simp only [appleParsed, chickenParsed, List.cons.injEq, Food.mk.injEq,
      Rat.mkRat_eq_div]
    norm_num
  · intro s h1 h2 h3
    simp [numField, h1, h2, h3]

/-- Witness: a token `parseFloat` rejects parses to 0. -/
theorem parseCSVToFoods_sample_witness : numField "abc" = 0 :=
  parseCSVToFoods_sample.2.2.2 "abc" (by decide) (by decide) (by decide)

/-- C10: a data line with at least 9 fields whose name field strips and trims
to the empty string is excluded by the parser, whatever its numeric fields
hold. -/
theorem parseRow_empty_name (line : String)
    (h9 : 9 ≤ (parseCSVLine line).length)
    (hname : jsStripQuotes ((parseCSVLine line).getD 0 "") = "") :
    parseRow line = none := by
  have hname9 : jsStripQuotes ((parseCSVLine line)[0]?.getD "") = "" := by
    simpa [List.getD_eq_getElem?_getD] using hname
  simp [parseRow, h9, hname9]

/-- Witness: a 9-field line with an empty name and a strictly positive
protein field is still dropped. -/
theorem parseRow_empty_name_witness :
    parseRow ",1,2,3,4,5,6,7,meat" = none ∧ 0 < numField "1" :=
  ⟨parseRow_empty_name ",1,2,3,4,5,6,7,meat" (by decide) (by decide),
   by decide⟩

/-- C9 counterexample: the empty input is non-numeric (`parseInt` gives
`NaN`), yet the stored budget 5 is not retained - the budget is cleared. -/
theorem updateMaxDailyCarbs_empty_clears :
    parseIntJS "" = none ∧ updateMaxDailyCarbs (some 5) "" = none ∧
    updateMaxDailyCarbs (some 5) "" ≠ some 5 := by
  refine ⟨by decide, by decide, by decide⟩

/-- C9 amended: for every input whose trimmed text is non-empty, if
`parseInt` yields `NaN` or a negative number the stored budget keeps its
previous value (set or unset); the trimmed-empty input instead clears the
budget. -/
theorem updateMaxDailyCarbs_rejects_invalid (prev : Option ℤ) (input : String)
    (hne : jsTrim input ≠ "")
    (hbad : parseIntJS (jsTrim input) = none ∨
      ∃ n : ℤ, parseIntJS (jsTrim input) = some n ∧ n < 0) :
    updateMaxDailyCarbs prev input = prev := by
  rcases hbad with h | ⟨n, h, hn⟩
  · simp [updateMaxDailyCarbs, hne, h]
  · simp [updateMaxDailyCarbs, hne, h, hn]

/-- Witness: a letter input and a negative input both leave budget 5 as is. -/
theorem updateMaxDailyCarbs_rejects_invalid_witness :
    updateMaxDailyCarbs (some 5) "abc" = some 5 ∧
    updateMaxDailyCarbs (some 5) " -3 " = some 5 :=
  ⟨updateMaxDailyCarbs_rejects_invalid (some 5) "abc" (by decide)
    (Or.inl (by decide)),
   updateMaxDailyCarbs_rejects_invalid (some 5) " -3 " (by decide)
    (Or.inr ⟨-3, by decide, by decide⟩)⟩

end CarbsCals
